import Mathlib

/-! Formal model of the statistical window-analysis engine and of the
weekly-accumulation backtest simulator of the Trading repository
(analyzer.py, analyzer_max_drawdown.py, backtester.py, main.py, overview.py).

Prices, cash amounts and dates are modelled as rationals.  Python's
round(x, n) is modelled by rounding half up at the n-th decimal place;
a price cell holding NaN is modelled as none.  The weekly interest rate
(1 + 0.05) ** (1 / 52) - 1 is irrational, so it is carried as an abstract
rational parameter: no result below depends on its value. -/

namespace Trading

/-- Python round(x, 2) (up to the tie-breaking rule, which no value in this
development hits). -/
def round2 (q : ℚ) : ℚ := ((⌊q * 100 + 1 / 2⌋ : ℤ) : ℚ) / 100

/-- Python round(x, 4). -/
def round4 (q : ℚ) : ℚ := ((⌊q * 10000 + 1 / 2⌋ : ℤ) : ℚ) / 10000

/-- sum(p * l for p, l in zip(ps, ls)); zip truncates at the shorter list. -/
def dot : List ℚ → List ℚ → ℚ
  | [], _ => 0
  | _ :: _, [] => 0
  | p :: ps, l :: ls => p * l + dot ps ls

/-- sum(xs). -/
def sumL (xs : List ℚ) : ℚ := xs.foldr (· + ·) 0

/-- min(xs) of a nonempty list (0 on the empty list, never used there). -/
def minL : List ℚ → ℚ
  | [] => 0
  | x :: xs => xs.foldl min x

/-- max(xs) of a nonempty list (0 on the empty list, never used there). -/
def maxL : List ℚ → ℚ
  | [] => 0
  | x :: xs => xs.foldl max x

/-- Parameters shared by all variants of backtest_weekly_investment. -/
structure SimParams where
  initialBalance : ℚ
  investPerWeek : ℚ
  tpPercent : ℚ
  leverage : ℚ
  coeff : ℚ
  std : ℚ
  weeklyRate : ℚ

/-- One input row of the daily simulator (analyzer.py): its Date, its
precomputed Week label, and its Close price (none models NaN). -/
structure Row where
  date : ℤ
  week : ℤ
  close : Option ℚ

/-- One row of the daily simulator's output history (analyzer.py lines 82-91). -/
structure Snap where
  date : ℤ
  week : ℤ
  closePrice : ℚ
  profitTP : ℚ
  cashInvest : ℚ
  cashSaving : ℚ
  cashSavingInterest : ℚ
  averageLotSize : ℚ

/-- The mutable simulator state of analyzer.backtest_weekly_investment.
newWeeks counts the executions of the new-week branch (the number of
distinct weeks opened so far, the input being sorted by date). -/
structure SimState where
  cashInvest : ℚ
  cashSaving : ℚ
  cashSavingInterest : ℚ
  tradePrices : List ℚ
  lotSizes : List ℚ
  currentWeek : Option ℤ
  stoppedEarly : Bool
  newWeeks : ℕ
  history : List Snap

/-- analyzer.py lines 80-91: the snapshot recorded at the end of a loop body. -/
def mkSnap (s : SimState) (r : Row) (price profit : ℚ) : Snap :=
  { date := r.date
    week := r.week
    closePrice := price
    profitTP := round2 profit
    cashInvest := round2 s.cashInvest
    cashSaving := round2 s.cashSaving
    cashSavingInterest := round2 s.cashSavingInterest
    averageLotSize :=
      if s.lotSizes = [] then 0 else round4 (sumL s.lotSizes / (s.lotSizes.length : ℚ)) }

/-- history.append(...) at the end of a loop body. -/
def pushSnap (s : SimState) (r : Row) (price profit : ℚ) : SimState :=
  { s with history := s.history ++ [mkSnap s r price profit] }

/-- analyzer.py lines 46-50: deposits and interest on a new-week boundary. -/
def weekUpdate (P : SimParams) (s : SimState) (week : ℤ) : SimState :=
  if s.currentWeek = some week then s
  else
    { s with currentWeek := some week
             cashInvest := s.cashInvest + P.investPerWeek
             cashSaving := s.cashSaving + P.investPerWeek
             cashSavingInterest := (s.cashSavingInterest + P.investPerWeek) * (1 + P.weeklyRate)
             newWeeks := s.newWeeks + 1 }

/-- analyzer.py line 66: the profit realized at a take-profit close,
avg_trade_price * sum(lot_sizes) * (tp_percent / 100) * coeff * 100 * leverage / 1000. -/
def tpProfit (P : SimParams) (prices lots : List ℚ) : ℚ :=
  (dot prices lots / sumL lots) * sumL lots * (P.tpPercent / 100) * P.coeff * 100
    * P.leverage / 1000

/-- analyzer.py lines 52-91: the trading part of one loop body (after the
weekly update, for a valid price), together with the snapshot; the
stop-loss break records no snapshot. -/
def tradeStep (P : SimParams) (s : SimState) (r : Row) (price : ℚ) : SimState :=
  let lotSize := max (round2 (s.cashInvest / (P.std * price * P.coeff))) (1 / 100)
  if s.tradePrices = [] then
    pushSnap { s with tradePrices := [price], lotSizes := [lotSize] } r price 0
  else
    if s.tradePrices.getLastD 0 * (1 + P.tpPercent / 100) ≤ price then
      pushSnap
        { s with cashInvest := s.cashInvest + tpProfit P s.tradePrices s.lotSizes
                 tradePrices := []
                 lotSizes := [] } r price (tpProfit P s.tradePrices s.lotSizes)
    else
      let s2 := { s with tradePrices := s.tradePrices ++ [price]
                         lotSizes := s.lotSizes ++ [lotSize] }
      if price < (dot s2.tradePrices s2.lotSizes / sumL s2.lotSizes) * (1 - P.std / 100) then
        { s2 with stoppedEarly := true }
      else pushSnap s2 r price 0

/-- analyzer.py lines 37-91: one iteration of the daily simulator's loop.
Once stopped_early is set the loop has been left, so further rows leave the
state untouched. -/
def stepA (P : SimParams) (s : SimState) (r : Row) : SimState :=
  if s.stoppedEarly then s
  else
    match r.close with
    | none => s
    | some price =>
      if price ≤ 0 then s
      else tradeStep P (weekUpdate P s r.week) r price

/-- analyzer.py lines 30-35. -/
def initState (P : SimParams) : SimState :=
  { cashInvest := P.initialBalance, cashSaving := P.initialBalance
    cashSavingInterest := P.initialBalance, tradePrices := [], lotSizes := []
    currentWeek := none, stoppedEarly := false, newWeeks := 0, history := [] }

/-- The daily simulator of analyzer.backtest_weekly_investment. -/
def runSim (P : SimParams) (rows : List Row) : SimState :=
  rows.foldl (stepA P) (initState P)

/-- One input row of the weekly simulator (backtester.py): the Week label and
the Close price of the week's first observation. -/
structure BRow where
  week : ℤ
  close : Option ℚ

/-- One row of the weekly simulator's output history (backtester.py lines 62-67);
only Profit_TP and Average_Lot_Size are rounded there. -/
structure BSnap where
  week : ℤ
  closePrice : ℚ
  profitTP : ℚ
  cashInvest : ℚ
  cashSaving : ℚ
  cashSavingInterest : ℚ
  averageLotSize : ℚ

/-- The mutable state of backtester.backtest_weekly_investment; stopped
models having left the loop through the wipe-out break. -/
structure BState where
  cashInvest : ℚ
  cashSaving : ℚ
  cashSavingInterest : ℚ
  listTradePrice : List ℚ
  listLotSize : List ℚ
  stopped : Bool
  history : List BSnap

def initStateB (P : SimParams) : BState :=
  { cashInvest := P.initialBalance, cashSaving := P.initialBalance
    cashSavingInterest := P.initialBalance, listTradePrice := [], listLotSize := []
    stopped := false, history := [] }

/-- backtester.py lines 30-53: the trading part of one loop body.  Returns the
updated state, the realized profit_tp, and whether the wipe-out break fired
(which sets cash_invest to 0 and leaves the loop). -/
def tradeStepB (P : SimParams) (s : BState) (price : ℚ) : BState × ℚ × Bool :=
  let lotSize := max (round2 (s.cashInvest / (P.std * price * P.coeff))) (1 / 100)
  if s.listTradePrice = [] then
    ({ s with listTradePrice := [price], listLotSize := [lotSize]
              cashInvest := s.cashInvest + P.investPerWeek }, 0, false)
  else
    if s.listTradePrice.getLastD 0 ≤ price * (1 + P.tpPercent / 100) then
      ({ s with cashInvest := s.cashInvest + P.investPerWeek
                  + tpProfit P s.listTradePrice s.listLotSize
                listTradePrice := []
                listLotSize := [] }, tpProfit P s.listTradePrice s.listLotSize, false)
    else
      let s2 := { s with listTradePrice := s.listTradePrice ++ [price]
                         listLotSize := s.listLotSize ++ [lotSize]
                         cashInvest := s.cashInvest + P.investPerWeek }
      if price < (dot s2.listTradePrice s2.listLotSize / sumL s2.listLotSize)
          * (1 - P.std / 100) then
        ({ s2 with cashInvest := 0, stopped := true }, 0, true)
      else (s2, 0, false)

/-- backtester.py lines 55-67: savings update and snapshot. -/
def mkBSnap (s : BState) (r : BRow) (price profit : ℚ) : BSnap :=
  { week := r.week, closePrice := price, profitTP := round2 profit
    cashInvest := s.cashInvest, cashSaving := s.cashSaving
    cashSavingInterest := s.cashSavingInterest
    averageLotSize :=
      if s.listLotSize = [] then 0
      else round4 (sumL s.listLotSize / (s.listLotSize.length : ℚ)) }

/-- backtester.py lines 25-67: one iteration of the weekly simulator's loop.
On the wipe-out break neither the savings update nor the snapshot runs. -/
def stepB (P : SimParams) (s : BState) (r : BRow) : BState :=
  if s.stopped then s
  else
    match r.close with
    | none => s
    | some price =>
      if price ≤ 0 then s
      else
        let t := tradeStepB P s price
        if t.2.2 then t.1
        else
          let s2 := { t.1 with
            cashSaving := t.1.cashSaving + P.investPerWeek
            cashSavingInterest := (t.1.cashSavingInterest + P.investPerWeek)
              * (1 + P.weeklyRate) }
          { s2 with history := s2.history ++ [mkBSnap s2 r price t.2.1] }

/-- The weekly simulator of backtester.backtest_weekly_investment
(overview.py holds the same loop without the Average_Lot_Size column). -/
def runB (P : SimParams) (rows : List BRow) : BState :=
  rows.foldl (stepB P) (initStateB P)

/-- Duration in years between the first and the last snapshot of a
trajectory, (Date.iloc[-1] - Date.iloc[0]).days / 365 (analyzer.py line 99). -/
def durationYearsOf : List Snap → ℚ
  | [] => 0
  | h :: t => ((((h :: t).getLastD h).date : ℚ) - (h.date : ℚ)) / 365

/-- analyzer.py calc_ar (lines 96-104).  The Python float power operator is
kept abstract as fpow: the guards return before it is ever consulted. -/
def calcAr (initialBalance investPerWeek : ℚ) (fpow : ℚ → ℚ → ℚ)
    (hist : List Snap) (value : Snap → ℚ) : ℚ :=
  match hist with
  | [] => 0
  | h :: t =>
    if durationYearsOf (h :: t) ≤ 0 then 0
    else
      round2 ((fpow (value ((h :: t).getLastD h)
          / (initialBalance + investPerWeek * ((((h :: t).map Snap.week).dedup.length : ℕ) : ℚ)))
          (1 / durationYearsOf (h :: t)) - 1) * 100)

/-- One observation of analyze_drawdown_and_gain: its Date and its Price
(none models NaN).  Dates are rationals because the horizon
365 * min_years_required may be fractional after the reassignment at
analyzer.py line 186. -/
structure Obs where
  date : ℚ
  price : Option ℚ

/-- data["Date"].max() (analyzer.py line 131). -/
def maxDateQ : List Obs → ℚ
  | [] => 0
  | o :: t => (t.map Obs.date).foldl max o.date

/-- analyzer.py lines 142-145: the Price values of the rows with date in
(d, d + horizon], restricted to positive prices (a NaN price fails the
positivity comparison and is dropped). -/
def futureSet (data : List Obs) (d horizon : ℚ) : List ℚ :=
  ((data.filter fun x => decide (d < x.date ∧ x.date ≤ d + horizon)).filterMap Obs.price).filter
    fun p => decide (0 < p)

/-- analyzer.py lines 134-153: the (Max_Drawdown, Max_Gain) pair computed
for one row. -/
def windowRow (data : List Obs) (horizon cutoff : ℚ) (o : Obs) : Option ℚ × Option ℚ :=
  match o.price with
  | none => (none, none)
  | some entryPrice =>
    if cutoff < o.date ∨ entryPrice ≤ 0 then (none, none)
    else
      if futureSet data o.date horizon = [] then (none, none)
      else
        (some (round2 (minL ((futureSet data o.date horizon).map
            fun p => (p - entryPrice) / entryPrice * 100))),
         some (round2 (maxL ((futureSet data o.date horizon).map
            fun p => (p - entryPrice) / entryPrice * 100))))

/-- analyzer.analyze_drawdown_and_gain, with horizon = 365 * min_years_required
days and cutoff = data["Date"].max() - horizon. -/
def analyzeDrawdownAndGain (data : List Obs) (horizon : ℚ) : List (Option ℚ × Option ℚ) :=
  data.map (windowRow data horizon (maxDateQ data - horizon))

/-- analyzer_max_drawdown.py lines 22-33: the Worst_Future_Gain_% column,
the worst percentage return from each entry to any later observation.
Note: the source applies no positivity filtering to entry or future prices. -/
def worstFutureGain : List ℚ → List (Option ℚ)
  | [] => []
  | p :: rest =>
    (if rest = [] then none
     else some (round2 (minL (rest.map fun q => (q - p) / p * 100)))) :: worstFutureGain rest

/-- A Python dict of per-symbol coefficients, looked up by symbol. -/
def coeffLookup : List (String × ℚ) → String → Option ℚ
  | [], _ => none
  | kv :: rest, sym => if kv.1 = sym then some kv.2 else coeffLookup rest sym

/-- analyzer.py line 255: coeff_map.get(symbol, 0.01). -/
def runAllAnalysesCoeff (m : List (String × ℚ)) (sym : String) : ℚ :=
  (coeffLookup m sym).getD (1 / 100)

/-- main.py line 68 and overview.py line 274: coeff_map.get(symbol),
none when the symbol is missing. -/
def mainCoeff (m : List (String × ℚ)) (sym : String) : Option ℚ :=
  coeffLookup m sym

/-- std * price * coeff (backtester.py line 30) when the coefficient may be
missing: multiplying None raises a TypeError in Python, modelled as none. -/
def valueDividerOpt (std price : ℚ) : Option ℚ → Option ℚ
  | none => none
  | some c => some (std * price * c)

/-- analyzer.py lines 305-309: the Standardized_Drawdown value of one row,
min(abs(md) / abs(threshold) * 100, 100) if md < 0 and the symbol has a
registered threshold, else 0.  A NaN Max_Drawdown compares false under < 0. -/
def standardizedDrawdown (threshold maxDrawdown : Option ℚ) : ℚ :=
  match maxDrawdown, threshold with
  | some m, some t => if m < 0 then min (|m| / |t| * 100) 100 else 0
  | _, _ => 0

/-- The state invariant of the daily simulator's open-lot lists: the two
lists have equal length, every recorded trade price is positive (only
positive prices pass the guard) and every lot size is at least 0.01. -/
def GoodLots (s : SimState) : Prop :=
  s.tradePrices.length = s.lotSizes.length ∧
    (∀ p ∈ s.tradePrices, 0 < p) ∧ ∀ l ∈ s.lotSizes, (1 : ℚ) / 100 ≤ l

theorem weekUpdate_tradePrices (P : SimParams) (s : SimState) (w : ℤ) :
    (weekUpdate P s w).tradePrices = s.tradePrices := by
  unfold weekUpdate; split <;> rfl

theorem weekUpdate_lotSizes (P : SimParams) (s : SimState) (w : ℤ) :
    (weekUpdate P s w).lotSizes = s.lotSizes := by
  unfold weekUpdate; split <;> rfl

theorem weekUpdate_eq_self (P : SimParams) (s : SimState) (w : ℤ)
    (h : s.currentWeek = some w) : weekUpdate P s w = s := by
  unfold weekUpdate; rw [if_pos h]

theorem weekUpdate_cashInvest_ge (P : SimParams) (s : SimState) (w : ℤ)
    (h : 0 ≤ P.investPerWeek) : s.cashInvest ≤ (weekUpdate P s w).cashInvest := by
  unfold weekUpdate
  split
  · exact le_refl _
  · exact le_add_of_nonneg_right h

theorem tradeStep_cashSaving (P : SimParams) (s : SimState) (r : Row) (price : ℚ) :
    (tradeStep P s r price).cashSaving = s.cashSaving := by
  simp only [tradeStep, pushSnap]
  split
  · rfl
  · split
    · rfl
    · split
      · rfl
      · rfl

theorem tradeStep_cashSavingInterest (P : SimParams) (s : SimState) (r : Row) (price : ℚ) :
    (tradeStep P s r price).cashSavingInterest = s.cashSavingInterest := by
  simp only [tradeStep, pushSnap]
  split
  · rfl
  · split
    · rfl
    · split
      · rfl
      · rfl

theorem tradeStep_newWeeks (P : SimParams) (s : SimState) (r : Row) (price : ℚ) :
    (tradeStep P s r price).newWeeks = s.newWeeks := by
  simp only [tradeStep, pushSnap]
  split
  · rfl
  · split
    · rfl
    · split
      · rfl
      · rfl

theorem stepA_of_stopped (P : SimParams) (s : SimState) (r : Row)
    (h : s.stoppedEarly = true) : stepA P s r = s := by
  unfold stepA; rw [if_pos h]

theorem stepA_cashSaving_frame (P : SimParams) (s : SimState) (r : Row)
    (h : s.currentWeek = some r.week) :
    (stepA P s r).cashSaving = s.cashSaving ∧
      (stepA P s r).cashSavingInterest = s.cashSavingInterest := by
  unfold stepA
  split
  · exact ⟨rfl, rfl⟩
  · split
    · exact ⟨rfl, rfl⟩
    · split
      · exact ⟨rfl, rfl⟩
      · rw [weekUpdate_eq_self P s r.week h]
        exact ⟨tradeStep_cashSaving .., tradeStep_cashSavingInterest ..⟩

theorem stepA_saving_newWeeks (P : SimParams) (s : SimState) (r : Row)
    (h : s.cashSaving = P.initialBalance + P.investPerWeek * (s.newWeeks : ℚ)) :
    (stepA P s r).cashSaving
      = P.initialBalance + P.investPerWeek * ((stepA P s r).newWeeks : ℚ) := by
  unfold stepA
  split
  · exact h
  · split
    · exact h
    · split
      · exact h
      · rw [tradeStep_cashSaving, tradeStep_newWeeks]
        unfold weekUpdate
        split
        · exact h
        · show s.cashSaving + P.investPerWeek
            = P.initialBalance + P.investPerWeek * ((s.newWeeks + 1 : ℕ) : ℚ)
          rw [h]; push_cast; ring

theorem foldl_saving_newWeeks (P : SimParams) (rows : List Row) : ∀ s : SimState,
    s.cashSaving = P.initialBalance + P.investPerWeek * (s.newWeeks : ℚ) →
    (rows.foldl (stepA P) s).cashSaving
      = P.initialBalance + P.investPerWeek * ((rows.foldl (stepA P) s).newWeeks : ℚ) := by
  induction rows with
  | nil => intro s h; exact h
  | cons r t ih => intro s h; exact ih (stepA P s r) (stepA_saving_newWeeks P s r h)

/-- Claim C10: in the daily backtest simulator of analyzer.py, the trading
branches mutate only cash_invest and the open-lot lists: cash_saving and
cash_saving_interest change only at week boundaries (a step inside the
current week leaves both untouched), and after any price path whatsoever,
once n distinct weeks have been opened, cash_saving equals
initial_balance + n * invest_per_week, regardless of take-profit or stop
events. -/
theorem c10_cash_saving_frame (P : SimParams) :
    (∀ (s : SimState) (r : Row), s.currentWeek = some r.week →
      (stepA P s r).cashSaving = s.cashSaving ∧
        (stepA P s r).cashSavingInterest = s.cashSavingInterest) ∧
    ∀ rows : List Row,
      (runSim P rows).cashSaving
        = P.initialBalance + P.investPerWeek * ((runSim P rows).newWeeks : ℚ) := by
  constructor
  · exact fun s r h => stepA_cashSaving_frame P s r h
  · intro rows
    refine foldl_saving_newWeeks P rows (initState P) ?_
    show P.initialBalance = P.initialBalance + P.investPerWeek * ((0 : ℕ) : ℚ)
    simp

theorem sumL_nil : sumL [] = 0 := rfl

theorem sumL_cons (x : ℚ) (xs : List ℚ) : sumL (x :: xs) = x + sumL xs := rfl

theorem sumL_nonneg (xs : List ℚ) (h : ∀ l ∈ xs, 0 ≤ l) : 0 ≤ sumL xs := by
  induction xs with
  | nil => exact le_refl 0
  | cons x xs ih =>
    rw [sumL_cons]
    have hx := h x (List.mem_cons_self x xs)
    have hxs := ih fun l hl => h l (List.mem_cons_of_mem x hl)
    linarith

theorem sumL_pos (xs : List ℚ) (hne : xs ≠ []) (h : ∀ l ∈ xs, (1 : ℚ) / 100 ≤ l) :
    0 < sumL xs := by
  cases xs with
  | nil => exact absurd rfl hne
  | cons x xs =>
    rw [sumL_cons]
    have hx := h x (List.mem_cons_self x xs)
    have hxs : 0 ≤ sumL xs := sumL_nonneg xs fun l hl =>
      le_trans (by norm_num) (h l (List.mem_cons_of_mem x hl))
    linarith

theorem dot_nonneg : ∀ ps ls : List ℚ, (∀ p ∈ ps, 0 ≤ p) → (∀ l ∈ ls, 0 ≤ l) →
    0 ≤ dot ps ls
  | [], _, _, _ => le_refl 0
  | _ :: _, [], _, _ => le_refl 0
  | p :: ps, l :: ls, hp, hl => by
    have h1 : 0 ≤ p * l :=
      mul_nonneg (hp p (List.mem_cons_self p ps)) (hl l (List.mem_cons_self l ls))
    have h2 : 0 ≤ dot ps ls :=
      dot_nonneg ps ls (fun x hx => hp x (List.mem_cons_of_mem p hx))
        fun x hx => hl x (List.mem_cons_of_mem l hx)
    show 0 ≤ p * l + dot ps ls
    linarith

theorem dot_pos (ps ls : List ℚ) (hne : ps ≠ []) (hlen : ps.length = ls.length)
    (hp : ∀ p ∈ ps, 0 < p) (hl : ∀ l ∈ ls, (1 : ℚ) / 100 ≤ l) : 0 < dot ps ls := by
  cases ps with
  | nil => exact absurd rfl hne
  | cons p ps =>
    cases ls with
    | nil => exact absurd hlen (by simp)
    | cons l ls =>
      rw [dot]
      have h1 : 0 < p * l :=
        mul_pos (hp p (List.mem_cons_self p ps))
          (lt_of_lt_of_le (by norm_num) (hl l (List.mem_cons_self l ls)))
      have h2 : 0 ≤ dot ps ls :=
        dot_nonneg ps ls (fun x hx => (hp x (List.mem_cons_of_mem p hx)).le)
          fun x hx => le_trans (by norm_num) (hl x (List.mem_cons_of_mem l hx))
      linarith

theorem tpProfit_nonneg (P : SimParams) (prices lots : List ℚ)
    (hp : ∀ p ∈ prices, 0 ≤ p) (hl : ∀ l ∈ lots, 0 ≤ l)
    (htp : 0 ≤ P.tpPercent) (hc : 0 ≤ P.coeff) (hlev : 0 ≤ P.leverage) :
    0 ≤ tpProfit P prices lots := by
  have h1 : 0 ≤ dot prices lots := dot_nonneg prices lots hp hl
  have h2 : 0 ≤ sumL lots := sumL_nonneg lots hl
  unfold tpProfit
  have h3 : (0 : ℚ) ≤ P.tpPercent / 100 := by positivity
  exact div_nonneg
    (mul_nonneg (mul_nonneg (mul_nonneg (mul_nonneg (mul_nonneg (div_nonneg h1 h2) h2) h3) hc)
      (by norm_num)) hlev) (by norm_num)

theorem tpProfit_pos (P : SimParams) (prices lots : List ℚ)
    (hne : prices ≠ []) (hlen : prices.length = lots.length)
    (hp : ∀ p ∈ prices, 0 < p) (hl : ∀ l ∈ lots, (1 : ℚ) / 100 ≤ l)
    (htp : 0 < P.tpPercent) (hc : 0 < P.coeff) (hlev : 0 < P.leverage) :
    0 < tpProfit P prices lots := by
  have hlne : lots ≠ [] := by
    intro h; rw [h] at hlen; exact hne (List.length_eq_zero.mp hlen)
  have h1 : 0 < dot prices lots := dot_pos prices lots hne hlen hp hl
  have h2 : 0 < sumL lots := sumL_pos lots hlne hl
  unfold tpProfit
  have h3 : (0 : ℚ) < P.tpPercent / 100 := by positivity
  exact div_pos
    (mul_pos (mul_pos (mul_pos (mul_pos (mul_pos (div_pos h1 h2) h2) h3) hc) (by norm_num))
      hlev) (by norm_num)

theorem goodLots_weekUpdate (P : SimParams) (s : SimState) (w : ℤ)
    (h : GoodLots s) : GoodLots (weekUpdate P s w) := by
  unfold GoodLots at h ⊢
  rw [weekUpdate_tradePrices, weekUpdate_lotSizes]
  exact h

theorem goodLots_tradeStep (P : SimParams) (s : SimState) (r : Row) (price : ℚ)
    (hpos : 0 < price) (h : GoodLots s) : GoodLots (tradeStep P s r price) := by
  obtain ⟨hlen, hp, hl⟩ := h
  unfold GoodLots
  simp only [tradeStep, pushSnap]
  split
  next =>
    refine ⟨rfl, ?_, ?_⟩
    · intro p hmem
      simp only [List.mem_singleton] at hmem
      exact hmem ▸ hpos
    · intro l hmem
      simp only [List.mem_singleton] at hmem
      exact hmem ▸ le_max_right _ _
  next =>
    split
    next => exact ⟨rfl, by simp, by simp⟩
    next =>
      have happ : ∀ u : SimState, u.tradePrices = s.tradePrices ++ [price] →
          u.lotSizes = s.lotSizes ++ [max (round2 (s.cashInvest / (P.std * price * P.coeff)))
            (1 / 100)] →
          u.tradePrices.length = u.lotSizes.length ∧
            (∀ p ∈ u.tradePrices, 0 < p) ∧ ∀ l ∈ u.lotSizes, (1 : ℚ) / 100 ≤ l := by
        intro u hu1 hu2
        rw [hu1, hu2]
        refine ⟨by simp [hlen], ?_, ?_⟩
        · intro p hmem
          rcases List.mem_append.mp hmem with hmem | hmem
          · exact hp p hmem
          · simp only [List.mem_singleton] at hmem
            exact hmem ▸ hpos
        · intro l hmem
          rcases List.mem_append.mp hmem with hmem | hmem
          · exact hl l hmem
          · simp only [List.mem_singleton] at hmem
            exact hmem ▸ le_max_right _ _
      split
      next => exact happ _ rfl rfl
      next => exact happ _ rfl rfl

theorem goodLots_stepA (P : SimParams) (s : SimState) (r : Row)
    (h : GoodLots s) : GoodLots (stepA P s r) := by
  unfold stepA
  split
  · exact h
  · split
    · exact h
    · split
      · exact h
      next hple =>
        exact goodLots_tradeStep P (weekUpdate P s r.week) r _ (not_le.mp hple)
          (goodLots_weekUpdate P s r.week h)

theorem goodLots_foldl (P : SimParams) (rows : List Row) : ∀ s : SimState,
    GoodLots s → GoodLots (rows.foldl (stepA P) s) := by
  induction rows with
  | nil => exact fun s h => h
  | cons r t ih => exact fun s h => ih (stepA P s r) (goodLots_stepA P s r h)

theorem goodLots_runSim (P : SimParams) (rows : List Row) : GoodLots (runSim P rows) :=
  goodLots_foldl P rows (initState P) ⟨rfl, by simp [initState], by simp [initState]⟩

theorem tradeStep_cashInvest_ge (P : SimParams) (s : SimState) (r : Row) (price : ℚ)
    (htp : 0 ≤ P.tpPercent) (hc : 0 ≤ P.coeff) (hlev : 0 ≤ P.leverage)
    (h : GoodLots s) : s.cashInvest ≤ (tradeStep P s r price).cashInvest := by
  obtain ⟨hlen, hp, hl⟩ := h
  simp only [tradeStep, pushSnap]
  split
  next => exact le_refl _
  next =>
    split
    next =>
      exact le_add_of_nonneg_right (tpProfit_nonneg P s.tradePrices s.lotSizes
        (fun p hmem => (hp p hmem).le)
        (fun l hmem => le_trans (by norm_num) (hl l hmem)) htp hc hlev)
    next =>
      split
      next => exact le_refl _
      next => exact le_refl _

theorem stepA_cashInvest_mono (P : SimParams) (s : SimState) (r : Row)
    (hinv : 0 ≤ P.investPerWeek) (htp : 0 ≤ P.tpPercent) (hc : 0 ≤ P.coeff)
    (hlev : 0 ≤ P.leverage) (h : GoodLots s) :
    s.cashInvest ≤ (stepA P s r).cashInvest := by
  unfold stepA
  split
  · exact le_refl _
  · split
    · exact le_refl _
    · split
      · exact le_refl _
      · exact le_trans (weekUpdate_cashInvest_ge P s r.week hinv)
          (tradeStep_cashInvest_ge P (weekUpdate P s r.week) r _ htp hc hlev
            (goodLots_weekUpdate P s r.week h))

theorem stepA_eq_tradeStep (P : SimParams) (s : SimState) (r : Row) (price : ℚ)
    (hstop : s.stoppedEarly = false) (hclose : r.close = some price) (hpos : 0 < price) :
    stepA P s r = tradeStep P (weekUpdate P s r.week) r price := by
  simp only [stepA, hstop, hclose, Bool.false_eq_true, if_false, hpos.not_le]

theorem tradeStep_close_iff (P : SimParams) (s : SimState) (r : Row) (price : ℚ)
    (hne : s.tradePrices ≠ []) :
    ((tradeStep P s r price).tradePrices = []
        ↔ s.tradePrices.getLastD 0 * (1 + P.tpPercent / 100) ≤ price) ∧
      (¬ s.tradePrices.getLastD 0 * (1 + P.tpPercent / 100) ≤ price →
        (tradeStep P s r price).tradePrices = s.tradePrices ++ [price]) := by
  simp only [tradeStep, pushSnap]
  rw [if_neg hne]
  split
  next hfire => exact ⟨iff_of_true rfl hfire, fun h => absurd hfire h⟩
  next hfire =>
    split
    next => exact ⟨iff_of_false (by simp) hfire, fun _ => rfl⟩
    next => exact ⟨iff_of_false (by simp) hfire, fun _ => rfl⟩

theorem stepB_listTradePrice_eq (P : SimParams) (s : BState) (r : BRow) (price : ℚ)
    (hstop : s.stopped = false) (hclose : r.close = some price) (hpos : 0 < price)
    (hne : s.listTradePrice ≠ []) :
    (stepB P s r).listTradePrice =
      if s.listTradePrice.getLastD 0 ≤ price * (1 + P.tpPercent / 100) then []
      else s.listTradePrice ++ [price] := by
  by_cases hfire : s.listTradePrice.getLastD 0 ≤ price * (1 + P.tpPercent / 100)
  · rw [if_pos hfire]
    simp only [stepB, tradeStepB, hstop, hclose, Bool.false_eq_true, if_false, hpos.not_le,
      if_neg hne, if_pos hfire]
  · rw [if_neg hfire]
    simp only [stepB, tradeStepB, hstop, hclose, Bool.false_eq_true, if_false, hpos.not_le,
      if_neg hne, if_neg hfire]
    split
    · rfl
    · rfl

/-- Claim C1, amended.  In the daily simulator (analyzer.py), at every step
with at least one open lot and a valid price, the take-profit close fires
if and only if the price p satisfies
p >= last_trade_price * (1 + tp_percent / 100) (last_trade_price being the
most recently opened lot's price), and otherwise a new lot is appended.  In
the weekly simulator (backtester.py, overview.py) the close instead fires
if and only if last_trade_price <= p * (1 + tp_percent / 100). -/
theorem c1_take_profit_trigger_variants :
    (∀ (P : SimParams) (s : SimState) (r : Row) (price : ℚ),
      s.stoppedEarly = false → r.close = some price → 0 < price → s.tradePrices ≠ [] →
      ((stepA P s r).tradePrices = []
          ↔ s.tradePrices.getLastD 0 * (1 + P.tpPercent / 100) ≤ price) ∧
        (¬ s.tradePrices.getLastD 0 * (1 + P.tpPercent / 100) ≤ price →
          (stepA P s r).tradePrices = s.tradePrices ++ [price])) ∧
    ∀ (P : SimParams) (s : BState) (r : BRow) (price : ℚ),
      s.stopped = false → r.close = some price → 0 < price → s.listTradePrice ≠ [] →
      ((stepB P s r).listTradePrice = []
        ↔ s.listTradePrice.getLastD 0 ≤ price * (1 + P.tpPercent / 100)) := by
  constructor
  · intro P s r price hstop hclose hpos hne
    rw [stepA_eq_tradeStep P s r price hstop hclose hpos]
    have h := tradeStep_close_iff P (weekUpdate P s r.week) r price
      (by rw [weekUpdate_tradePrices]; exact hne)
    rwa [weekUpdate_tradePrices] at h
  · intro P s r price hstop hclose hpos hne
    rw [stepB_listTradePrice_eq P s r price hstop hclose hpos hne]
    by_cases hfire : s.listTradePrice.getLastD 0 ≤ price * (1 + P.tpPercent / 100)
    · rw [if_pos hfire]; exact iff_of_true rfl hfire
    · rw [if_neg hfire]; exact iff_of_false (by simp) hfire

/-- Counterexample to C1 as stated: in the weekly simulator
(backtester.py lines 39-44), with tp_percent = 1, a run over prices
100 then 99.5 has one lot open (at 100) entering the second step, the
claim's trigger 100 * 1.01 <= 99.5 is false, and yet the take-profit
close fires there (the open-lot list comes back empty). -/
theorem c1_counterexample :
    (runB ⟨1000, 10, 1, 1, 1, 1, 0⟩ [⟨0, some 100⟩]).listTradePrice = [100] ∧
    (runB ⟨1000, 10, 1, 1, 1, 1, 0⟩ [⟨0, some 100⟩, ⟨1, some (199 / 2)⟩]).listTradePrice = [] ∧
      ¬ ((100 : ℚ) * (1 + 1 / 100) ≤ 199 / 2) := by
  refine ⟨?_, ?_, by norm_num⟩ <;>
    norm_num [runB, stepB, tradeStepB, initStateB, mkBSnap, round2, round4, tpProfit, dot,
      sumL, List.foldl, List.getLastD]

/-- Witness for C1's amended theorem at the spec's concrete scenario
(lots at 100 and 102, tp_percent = 1, price 103) and at the weekly
simulator's state with one lot at 100 and price 99.5. -/
theorem c1_witness :
    (((stepA ⟨1000, 10, 1, 1, 1, 50, 0⟩
          ⟨1000, 1000, 1000, [100, 102], [1, 1], some 0, false, 1, []⟩
          ⟨0, 0, some 103⟩).tradePrices = []
        ↔ ([100, 102] : List ℚ).getLastD 0 * (1 + 1 / 100) ≤ 103) ∧
      (¬ ([100, 102] : List ℚ).getLastD 0 * (1 + 1 / 100) ≤ 103 →
        (stepA ⟨1000, 10, 1, 1, 1, 50, 0⟩
          ⟨1000, 1000, 1000, [100, 102], [1, 1], some 0, false, 1, []⟩
          ⟨0, 0, some 103⟩).tradePrices = [100, 102] ++ [103])) ∧
    ((stepB ⟨1000, 10, 1, 1, 1, 50, 0⟩ ⟨1000, 1000, 1000, [100], [10], false, []⟩
        ⟨1, some (199 / 2)⟩).listTradePrice = []
      ↔ ([100] : List ℚ).getLastD 0 ≤ 199 / 2 * (1 + 1 / 100)) := by
  exact ⟨c1_take_profit_trigger_variants.1 ⟨1000, 10, 1, 1, 1, 50, 0⟩
      ⟨1000, 1000, 1000, [100, 102], [1, 1], some 0, false, 1, []⟩ ⟨0, 0, some 103⟩ 103
      rfl rfl (by norm_num) (by simp),
    c1_take_profit_trigger_variants.2 ⟨1000, 10, 1, 1, 1, 50, 0⟩
      ⟨1000, 1000, 1000, [100], [10], false, []⟩ ⟨1, some (199 / 2)⟩ (199 / 2)
      rfl rfl (by norm_num) (by simp)⟩

theorem tradeStep_fire (P : SimParams) (s : SimState) (r : Row) (price : ℚ)
    (hne : s.tradePrices ≠ [])
    (hfire : s.tradePrices.getLastD 0 * (1 + P.tpPercent / 100) ≤ price) :
    (tradeStep P s r price).cashInvest = s.cashInvest + tpProfit P s.tradePrices s.lotSizes ∧
      (tradeStep P s r price).tradePrices = [] ∧ (tradeStep P s r price).lotSizes = [] := by
  simp only [tradeStep, pushSnap]
  rw [if_neg hne, if_pos hfire]
  exact ⟨rfl, rfl, rfl⟩

theorem stepB_fire (P : SimParams) (s : BState) (r : BRow) (price : ℚ)
    (hstop : s.stopped = false) (hclose : r.close = some price) (hpos : 0 < price)
    (hne : s.listTradePrice ≠ [])
    (hfire : s.listTradePrice.getLastD 0 ≤ price * (1 + P.tpPercent / 100)) :
    (stepB P s r).cashInvest
        = s.cashInvest + P.investPerWeek + tpProfit P s.listTradePrice s.listLotSize ∧
      (stepB P s r).listTradePrice = [] ∧ (stepB P s r).listLotSize = [] := by
  simp only [stepB, tradeStepB, hstop, hclose, Bool.false_eq_true, if_false, hpos.not_le,
    if_neg hne, if_pos hfire]
  refine ⟨?_, ?_, ?_⟩ <;> trivial

/-- Claim C5: whenever the take-profit trigger fires with open lots, the
realized profit added to cash_invest equals
avg_price * (sum of lot sizes) * (tp_percent / 100) * coeff * 100 * leverage / 1000,
with avg_price the size-weighted average entry price, and the open-lot
lists are cleared in the same step; in the daily simulator (analyzer.py,
stated here for a step inside the current week, so that no deposit mixes
into the delta) and likewise in the weekly simulator (backtester.py, where
the weekly deposit is added alongside). -/
theorem c5_take_profit_amount :
    (∀ (P : SimParams) (s : SimState) (r : Row) (price : ℚ),
      s.stoppedEarly = false → r.close = some price → 0 < price →
      s.currentWeek = some r.week → s.tradePrices ≠ [] →
      s.tradePrices.getLastD 0 * (1 + P.tpPercent / 100) ≤ price →
      (stepA P s r).cashInvest
          = s.cashInvest + dot s.tradePrices s.lotSizes / sumL s.lotSizes * sumL s.lotSizes
            * (P.tpPercent / 100) * P.coeff * 100 * P.leverage / 1000 ∧
        (stepA P s r).tradePrices = [] ∧ (stepA P s r).lotSizes = []) ∧
    ∀ (P : SimParams) (s : BState) (r : BRow) (price : ℚ),
      s.stopped = false → r.close = some price → 0 < price → s.listTradePrice ≠ [] →
      s.listTradePrice.getLastD 0 ≤ price * (1 + P.tpPercent / 100) →
      (stepB P s r).cashInvest
          = s.cashInvest + P.investPerWeek + dot s.listTradePrice s.listLotSize
            / sumL s.listLotSize * sumL s.listLotSize * (P.tpPercent / 100) * P.coeff * 100
            * P.leverage / 1000 ∧
        (stepB P s r).listTradePrice = [] ∧ (stepB P s r).listLotSize = [] := by
  constructor
  · intro P s r price hstop hclose hpos hweek hne hfire
    rw [stepA_eq_tradeStep P s r price hstop hclose hpos, weekUpdate_eq_self P s r.week hweek]
    exact tradeStep_fire P s r price hne hfire
  · intro P s r price hstop hclose hpos hne hfire
    exact stepB_fire P s r price hstop hclose hpos hne hfire

/-- Witness for C5 at the spec's concrete scenario: lots at 100 and 102 of
size 1 each, tp_percent = 1, price 103.1 (at least 102 * 1.01 = 103.02);
avg_price = 101, so the realized profit is
101 * 2 * 0.01 * coeff * 100 * leverage / 1000 for coeff = 2, leverage = 5. -/
theorem c5_witness :
    ((stepA ⟨1000, 10, 1, 5, 2, 50, 0⟩
        ⟨1000, 1000, 1000, [100, 102], [1, 1], some 0, false, 1, []⟩
        ⟨0, 0, some (1031 / 10)⟩).cashInvest
      = 1000 + dot [100, 102] [1, 1] / sumL [1, 1] * sumL [1, 1] * (1 / 100) * 2 * 100
          * 5 / 1000 ∧
    (stepA ⟨1000, 10, 1, 5, 2, 50, 0⟩
        ⟨1000, 1000, 1000, [100, 102], [1, 1], some 0, false, 1, []⟩
        ⟨0, 0, some (1031 / 10)⟩).tradePrices = [] ∧
    (stepA ⟨1000, 10, 1, 5, 2, 50, 0⟩
        ⟨1000, 1000, 1000, [100, 102], [1, 1], some 0, false, 1, []⟩
        ⟨0, 0, some (1031 / 10)⟩).lotSizes = []) ∧
    (stepB ⟨1000, 10, 1, 5, 2, 50, 0⟩ ⟨1000, 1000, 1000, [100, 102], [1, 1], false, []⟩
        ⟨0, some (1031 / 10)⟩).cashInvest
      = 1000 + 10 + dot [100, 102] [1, 1] / sumL [1, 1] * sumL [1, 1] * (1 / 100) * 2 * 100
          * 5 / 1000 := by
  exact ⟨c5_take_profit_amount.1 ⟨1000, 10, 1, 5, 2, 50, 0⟩
      ⟨1000, 1000, 1000, [100, 102], [1, 1], some 0, false, 1, []⟩ ⟨0, 0, some (1031 / 10)⟩
      (1031 / 10) rfl rfl (by norm_num) rfl (by simp) (by norm_num [List.getLastD]),
    (c5_take_profit_amount.2 ⟨1000, 10, 1, 5, 2, 50, 0⟩
      ⟨1000, 1000, 1000, [100, 102], [1, 1], false, []⟩ ⟨0, some (1031 / 10)⟩
      (1031 / 10) rfl rfl (by norm_num) (by simp) (by norm_num [List.getLastD])).1⟩

theorem stepA_fire_strict (P : SimParams) (s : SimState) (r : Row) (price : ℚ)
    (hstop : s.stoppedEarly = false) (hclose : r.close = some price) (hpos : 0 < price)
    (hne : s.tradePrices ≠ [])
    (hfire : s.tradePrices.getLastD 0 * (1 + P.tpPercent / 100) ≤ price)
    (hinv : 0 ≤ P.investPerWeek) (htp : 0 < P.tpPercent) (hc : 0 < P.coeff)
    (hlev : 0 < P.leverage) (h : GoodLots s) :
    s.cashInvest < (stepA P s r).cashInvest := by
  obtain ⟨hlen, hp, hl⟩ := h
  rw [stepA_eq_tradeStep P s r price hstop hclose hpos]
  have hne2 : (weekUpdate P s r.week).tradePrices ≠ [] := by
    rw [weekUpdate_tradePrices]; exact hne
  have hfire2 : (weekUpdate P s r.week).tradePrices.getLastD 0 * (1 + P.tpPercent / 100)
      ≤ price := by rw [weekUpdate_tradePrices]; exact hfire
  rw [(tradeStep_fire P (weekUpdate P s r.week) r price hne2 hfire2).1,
    weekUpdate_tradePrices, weekUpdate_lotSizes]
  have h1 : s.cashInvest ≤ (weekUpdate P s r.week).cashInvest :=
    weekUpdate_cashInvest_ge P s r.week hinv
  have h2 : 0 < tpProfit P s.tradePrices s.lotSizes :=
    tpProfit_pos P s.tradePrices s.lotSizes hne hlen hp hl htp hc hlev
  linarith

/-- Claim C2, amended.  In the daily simulator (analyzer.py), with a
nonnegative weekly deposit and positive tp_percent, coeff and leverage,
cash_invest is non-decreasing from each processed step to the next, a
take-profit close strictly increases it, and once stopped_early is set no
field of the state is ever mutated again (further rows are not processed).
In the weekly simulator (backtester.py), the wipe-out instead sets
cash_invest to 0 before terminating, a strict decrease whenever it was
positive (see the counterexample). -/
theorem c2_cash_invest_monotone_frozen (P : SimParams) (rows : List Row) (r : Row)
    (hInv : 0 ≤ P.investPerWeek) (hTp : 0 < P.tpPercent) (hC : 0 < P.coeff)
    (hL : 0 < P.leverage) :
    (runSim P rows).cashInvest ≤ (stepA P (runSim P rows) r).cashInvest ∧
    (∀ price : ℚ, (runSim P rows).stoppedEarly = false → r.close = some price → 0 < price →
      (runSim P rows).tradePrices ≠ [] →
      (runSim P rows).tradePrices.getLastD 0 * (1 + P.tpPercent / 100) ≤ price →
      (runSim P rows).cashInvest < (stepA P (runSim P rows) r).cashInvest) ∧
    ((runSim P rows).stoppedEarly = true → stepA P (runSim P rows) r = runSim P rows) := by
  refine ⟨?_, ?_, ?_⟩
  · exact stepA_cashInvest_mono P (runSim P rows) r hInv hTp.le hC.le hL.le
      (goodLots_runSim P rows)
  · intro price hstop hclose hpos hne hfire
    exact stepA_fire_strict P (runSim P rows) r price hstop hclose hpos hne hfire hInv hTp hC
      hL (goodLots_runSim P rows)
  · exact fun h => stepA_of_stopped P (runSim P rows) r h

/-- Counterexample to C2 as stated: in the weekly simulator
(backtester.py lines 50-53), a run over prices 100 then 90 (with
tp_percent = 1, std = 1, coeff = 1, initial balance 1000, weekly deposit
10) hits the wipe-out at the second step, which sets cash_invest to 0 —
strictly below the 1010 it held after the first processed step — instead
of freezing the state. -/
theorem c2_counterexample :
    (runB ⟨1000, 10, 1, 1, 1, 1, 0⟩ [⟨0, some 100⟩, ⟨1, some 90⟩]).stopped = true ∧
    (runB ⟨1000, 10, 1, 1, 1, 1, 0⟩ [⟨0, some 100⟩]).cashInvest = 1010 ∧
    (runB ⟨1000, 10, 1, 1, 1, 1, 0⟩ [⟨0, some 100⟩, ⟨1, some 90⟩]).cashInvest
      < (runB ⟨1000, 10, 1, 1, 1, 1, 0⟩ [⟨0, some 100⟩]).cashInvest := by
  refine ⟨?_, ?_, ?_⟩ <;>
    norm_num [runB, stepB, tradeStepB, initStateB, mkBSnap, round2, round4, tpProfit, dot,
      sumL, List.foldl, List.getLastD]

/-- Witness for C2's amended theorem at a concrete parameter set and run. -/
theorem c2_witness :
    (runSim ⟨1000, 10, 1, 1, 1, 50, 0⟩ [⟨0, 0, some 100⟩]).cashInvest
        ≤ (stepA ⟨1000, 10, 1, 1, 1, 50, 0⟩ (runSim ⟨1000, 10, 1, 1, 1, 50, 0⟩
            [⟨0, 0, some 100⟩]) ⟨1, 0, some 102⟩).cashInvest ∧
    (∀ price : ℚ,
      (runSim ⟨1000, 10, 1, 1, 1, 50, 0⟩ [⟨0, 0, some 100⟩]).stoppedEarly = false →
      (⟨1, 0, some 102⟩ : Row).close = some price → 0 < price →
      (runSim ⟨1000, 10, 1, 1, 1, 50, 0⟩ [⟨0, 0, some 100⟩]).tradePrices ≠ [] →
      (runSim ⟨1000, 10, 1, 1, 1, 50, 0⟩ [⟨0, 0, some 100⟩]).tradePrices.getLastD 0
          * (1 + 1 / 100) ≤ price →
      (runSim ⟨1000, 10, 1, 1, 1, 50, 0⟩ [⟨0, 0, some 100⟩]).cashInvest
        < (stepA ⟨1000, 10, 1, 1, 1, 50, 0⟩ (runSim ⟨1000, 10, 1, 1, 1, 50, 0⟩
            [⟨0, 0, some 100⟩]) ⟨1, 0, some 102⟩).cashInvest) ∧
    ((runSim ⟨1000, 10, 1, 1, 1, 50, 0⟩ [⟨0, 0, some 100⟩]).stoppedEarly = true →
      stepA ⟨1000, 10, 1, 1, 1, 50, 0⟩ (runSim ⟨1000, 10, 1, 1, 1, 50, 0⟩ [⟨0, 0, some 100⟩])
          ⟨1, 0, some 102⟩
        = runSim ⟨1000, 10, 1, 1, 1, 50, 0⟩ [⟨0, 0, some 100⟩]) :=
  c2_cash_invest_monotone_frozen ⟨1000, 10, 1, 1, 1, 50, 0⟩ [⟨0, 0, some 100⟩]
    ⟨1, 0, some 102⟩ (by norm_num) (by norm_num) (by norm_num) (by norm_num)

/-- Witness for C10 at a concrete state and row inside the current week. -/
theorem c10_witness :
    ((stepA ⟨1000, 10, 1, 1, 1, 50, 0⟩
        ⟨1000, 1000, 1000, [100], [1], some 7, false, 1, []⟩ ⟨3, 7, some 101⟩).cashSaving
      = (1000 : ℚ) ∧
    (stepA ⟨1000, 10, 1, 1, 1, 50, 0⟩
        ⟨1000, 1000, 1000, [100], [1], some 7, false, 1, []⟩ ⟨3, 7, some 101⟩).cashSavingInterest
      = (1000 : ℚ)) ∧
    (runSim ⟨1000, 10, 1, 1, 1, 50, 0⟩ [⟨0, 0, some 100⟩]).cashSaving
      = 1000 + 10 * (((runSim ⟨1000, 10, 1, 1, 1, 50, 0⟩ [⟨0, 0, some 100⟩]).newWeeks : ℕ) : ℚ) := by
  exact ⟨(c10_cash_saving_frame ⟨1000, 10, 1, 1, 1, 50, 0⟩).1
      ⟨1000, 1000, 1000, [100], [1], some 7, false, 1, []⟩ ⟨3, 7, some 101⟩ rfl,
    (c10_cash_saving_frame ⟨1000, 10, 1, 1, 1, 50, 0⟩).2 [⟨0, 0, some 100⟩]⟩

theorem mem_futureSet (data : List Obs) (d horizon p : ℚ) :
    p ∈ futureSet data d horizon ↔
      ∃ x ∈ data, (d < x.date ∧ x.date ≤ d + horizon) ∧ x.price = some p ∧ 0 < p := by
  simp only [futureSet, List.mem_filter, List.mem_filterMap, decide_eq_true_eq]
  constructor
  · rintro ⟨⟨x, ⟨hx, hcond⟩, hpx⟩, hp0⟩
    exact ⟨x, hx, hcond, hpx, hp0⟩
  · rintro ⟨x, hx, hcond, hpx, hp0⟩
    exact ⟨⟨x, ⟨hx, hcond⟩, hpx⟩, hp0⟩

theorem analyze_get (data : List Obs) (horizon : ℚ) (i : ℕ) (o : Obs)
    (hi : data.get? i = some o) :
    (analyzeDrawdownAndGain data horizon).get? i
      = some (windowRow data horizon (maxDateQ data - horizon) o) := by
  unfold analyzeDrawdownAndGain
  rw [List.get?_map, hi]
  rfl

/-- Claim C3: in bounded-horizon window analysis, for every entry with a
positive price whose date does not exceed the cutoff
(last date minus horizon), the future set consists exactly of the
observations with date in (d, d + horizon] whose prices are positive; if
that set is empty both outputs are null, otherwise Max_Drawdown is the
minimum and Max_Gain the maximum of (p - entry_price) / entry_price * 100
over it, each rounded to 2 decimal places. -/
theorem c3_bounded_window_outputs (data : List Obs) (horizon : ℚ) (i : ℕ) (o : Obs) (ep : ℚ)
    (hi : data.get? i = some o) (hp : o.price = some ep) (hpos : 0 < ep)
    (hcut : o.date ≤ maxDateQ data - horizon) :
    (∀ p : ℚ, p ∈ futureSet data o.date horizon ↔
      ∃ x ∈ data, (o.date < x.date ∧ x.date ≤ o.date + horizon) ∧ x.price = some p ∧ 0 < p) ∧
    (futureSet data o.date horizon = [] →
      (analyzeDrawdownAndGain data horizon).get? i = some (none, none)) ∧
    (futureSet data o.date horizon ≠ [] →
      (analyzeDrawdownAndGain data horizon).get? i =
        some (some (round2 (minL ((futureSet data o.date horizon).map
            fun p => (p - ep) / ep * 100))),
          some (round2 (maxL ((futureSet data o.date horizon).map
            fun p => (p - ep) / ep * 100))))) := by
  refine ⟨fun p => mem_futureSet data o.date horizon p, ?_, ?_⟩
  · intro hfut
    rw [analyze_get data horizon i o hi]
    simp only [windowRow, hp]
    rw [if_neg (not_or.mpr ⟨not_lt.mpr hcut, not_le.mpr hpos⟩), if_pos hfut]
  · intro hfut
    rw [analyze_get data horizon i o hi]
    simp only [windowRow, hp]
    rw [if_neg (not_or.mpr ⟨not_lt.mpr hcut, not_le.mpr hpos⟩), if_neg hfut]

/-- Witness for C3 on the series (0, 100), (1, 110), (2, 90) with horizon 2:
the entry at date 0 sits exactly at the cutoff, its future set is
[110, 90], and the outputs are min/max of [10, -10] rounded. -/
theorem c3_witness :
    ((110 : ℚ) ∈ futureSet [⟨0, some 100⟩, ⟨1, some 110⟩, ⟨2, some 90⟩] 0 2 ↔
      ∃ x ∈ ([⟨0, some 100⟩, ⟨1, some 110⟩, ⟨2, some 90⟩] : List Obs),
        ((0 : ℚ) < x.date ∧ x.date ≤ 0 + 2) ∧ x.price = some 110 ∧ (0 : ℚ) < 110) ∧
    (analyzeDrawdownAndGain [⟨0, some 100⟩, ⟨1, some 110⟩, ⟨2, some 90⟩] 2).get? 0 =
      some (some (round2 (minL ((futureSet [⟨0, some 100⟩, ⟨1, some 110⟩, ⟨2, some 90⟩]
          0 2).map fun p => (p - 100) / 100 * 100))),
        some (round2 (maxL ((futureSet [⟨0, some 100⟩, ⟨1, some 110⟩, ⟨2, some 90⟩]
          0 2).map fun p => (p - 100) / 100 * 100)))) := by
  have h := c3_bounded_window_outputs [⟨0, some 100⟩, ⟨1, some 110⟩, ⟨2, some 90⟩] 2 0
    ⟨0, some 100⟩ 100 rfl rfl (by norm_num) (by norm_num [maxDateQ])
  refine ⟨h.1 110, h.2.2 ?_⟩
  have hfut : futureSet [⟨0, some 100⟩, ⟨1, some 110⟩, ⟨2, some 90⟩]
      (⟨0, some 100⟩ : Obs).date 2 = [110, 90] := by
    norm_num [futureSet, List.filter, List.filterMap]
  rw [hfut]
  exact List.cons_ne_nil _ _

/-- Claim C4: in bounded-horizon mode, every entry whose date is strictly
greater than the series' last date minus the horizon gets null for both
outputs, regardless of how much future data exists after it (and
regardless of its price). -/
theorem c4_cutoff_null (data : List Obs) (horizon : ℚ) (i : ℕ) (o : Obs)
    (hi : data.get? i = some o) (h : maxDateQ data - horizon < o.date) :
    (analyzeDrawdownAndGain data horizon).get? i = some (none, none) := by
  rw [analyze_get data horizon i o hi]
  cases hp : o.price with
  | none => simp only [windowRow, hp]
  | some ep =>
    simp only [windowRow, hp]
    rw [if_pos (Or.inl h)]

/-- Witness for C4: with horizon 300 over dates 0, 200, 400, the entry at
date 200 exceeds the cutoff 100 and gets null although a future
observation (date 400, price 110) lies inside its forward window. -/
theorem c4_witness :
    (analyzeDrawdownAndGain [⟨0, some 100⟩, ⟨200, some 50⟩, ⟨400, some 110⟩] 300).get? 1
      = some (none, none) :=
  c4_cutoff_null [⟨0, some 100⟩, ⟨200, some 50⟩, ⟨400, some 110⟩] 300 1 ⟨200, some 50⟩ rfl
    (by norm_num [maxDateQ])

/-- Counterexample to C6 as stated: the unbounded-horizon engine
(analyzer_max_drawdown.py lines 22-31) applies no positivity filter.  On
the price series [100, -50] the entry at 100 gets
Worst_Future_Gain_% = -150, the percentage return through the nonpositive
future price -50 (had that price been excluded, the future set would be
empty and the output null); and on [-50, 100] the nonpositive price -50 is
itself used as an entry, yielding -300. -/
theorem c6_counterexample :
    worstFutureGain [100, -50] = [some (-150), none] ∧
    worstFutureGain [100, -50] ≠ [none, none] ∧
    worstFutureGain [-50, 100] = [some (-300), none] ∧
    ((-50 : ℚ) ≤ 0) ∧
    round2 (((-50 : ℚ) - 100) / 100 * 100) = -150 ∧
    round2 ((100 - (-50 : ℚ)) / (-50) * 100) = -300 := by
  have h1 : worstFutureGain [100, -50] = [some (-150), none] := by
    norm_num [worstFutureGain, minL, round2]
  refine ⟨h1, ?_, ?_, by norm_num, ?_, ?_⟩
  · rw [h1]; simp
  · norm_num [worstFutureGain, minL, round2]
  · norm_num [round2]
  · norm_num [round2]

/-- Claim C6, amended.  The bounded-horizon engine (analyzer.py) never uses
a nonpositive price: every member of any future set is positive, and an
entry with nonpositive price gets null outputs.  The unbounded-horizon
engine (analyzer_max_drawdown.py) applies no such filter and its outputs
can depend on nonpositive prices (see the counterexample). -/
theorem c6_bounded_engine_positive_prices :
    (∀ (data : List Obs) (d horizon p : ℚ), p ∈ futureSet data d horizon → 0 < p) ∧
    ∀ (data : List Obs) (horizon : ℚ) (i : ℕ) (o : Obs) (ep : ℚ),
      data.get? i = some o → o.price = some ep → ep ≤ 0 →
      (analyzeDrawdownAndGain data horizon).get? i = some (none, none) := by
  constructor
  · intro data d horizon p hp
    obtain ⟨x, _, _, _, hp0⟩ := (mem_futureSet data d horizon p).mp hp
    exact hp0
  · intro data horizon i o ep hi hp hle
    rw [analyze_get data horizon i o hi]
    simp only [windowRow, hp]
    rw [if_pos (Or.inr hle)]

/-- Witness for C6's amended theorem: 110 belongs to a concrete future set
and is positive; a concrete entry with price -5 gets null outputs. -/
theorem c6_witness :
    (0 : ℚ) < 110 ∧
      (analyzeDrawdownAndGain [⟨0, some (-5)⟩, ⟨1, some 10⟩] 10).get? 0
        = some (none, none) :=
  ⟨c6_bounded_engine_positive_prices.1 [⟨0, some 100⟩, ⟨1, some 110⟩] 0 10 110
      (by norm_num [futureSet, List.filter, List.filterMap]),
    c6_bounded_engine_positive_prices.2 [⟨0, some (-5)⟩, ⟨1, some 10⟩] 10 0 ⟨0, some (-5)⟩
      (-5) rfl rfl (by norm_num)⟩

/-- Claim C7: the annualized-return computation returns exactly 0.0 — the
float power operator is never consulted, so no error can arise from it —
whenever the trajectory is empty or duration_years (computed from the first
and last snapshot dates) is at most 0, the single-day trajectory included;
otherwise it returns
((final_value / total_contribution) ** (1 / duration_years) - 1) * 100
rounded to 2 decimal places. -/
theorem c7_calc_ar_guards (ib iw : ℚ) (f g : ℚ → ℚ → ℚ) (hist : List Snap)
    (value : Snap → ℚ) :
    (hist = [] → calcAr ib iw f hist value = 0) ∧
    (durationYearsOf hist ≤ 0 →
      calcAr ib iw f hist value = 0 ∧
        calcAr ib iw f hist value = calcAr ib iw g hist value) ∧
    ∀ (h : Snap) (t : List Snap), hist = h :: t → 0 < durationYearsOf hist →
      calcAr ib iw f hist value =
        round2 ((f (value ((h :: t).getLastD h)
            / (ib + iw * ((((h :: t).map Snap.week).dedup.length : ℕ) : ℚ)))
          (1 / durationYearsOf (h :: t)) - 1) * 100) := by
  cases hist with
  | nil =>
    refine ⟨fun _ => rfl, fun _ => ⟨rfl, rfl⟩, ?_⟩
    intro h t hht _
    exact absurd hht (by simp)
  | cons h t =>
    refine ⟨fun hh => absurd hh (by simp), ?_, ?_⟩
    · intro hdur
      constructor
      · simp only [calcAr]
        rw [if_pos hdur]
      · simp only [calcAr]
        rw [if_pos hdur, if_pos hdur]
    · intro h2 t2 heq hdur
      cases heq
      simp only [calcAr]
      rw [if_neg (not_le.mpr hdur)]

/-- Witness for C7: the empty trajectory and a concrete single-day
trajectory both yield 0, for two different power functions. -/
theorem c7_witness :
    calcAr 1000 10 (fun a b => a + b) [] Snap.cashInvest = 0 ∧
    calcAr 1000 10 (fun a b => a + b) [⟨5, 0, 100, 0, 1000, 1000, 1000, 0⟩]
        Snap.cashInvest = 0 ∧
    calcAr 1000 10 (fun a b => a + b) [⟨5, 0, 100, 0, 1000, 1000, 1000, 0⟩] Snap.cashInvest
      = calcAr 1000 10 (fun _ _ => 0) [⟨5, 0, 100, 0, 1000, 1000, 1000, 0⟩]
          Snap.cashInvest := by
  refine ⟨(c7_calc_ar_guards 1000 10 (fun a b => a + b) (fun _ _ => 0) []
      Snap.cashInvest).1 rfl, ?_, ?_⟩
  · exact ((c7_calc_ar_guards 1000 10 (fun a b => a + b) (fun _ _ => 0)
      [⟨5, 0, 100, 0, 1000, 1000, 1000, 0⟩] Snap.cashInvest).2.1
        (by norm_num [durationYearsOf, List.getLastD])).1
  · exact ((c7_calc_ar_guards 1000 10 (fun a b => a + b) (fun _ _ => 0)
      [⟨5, 0, 100, 0, 1000, 1000, 1000, 0⟩] Snap.cashInvest).2.1
        (by norm_num [durationYearsOf, List.getLastD])).2

/-- Claim C8: every standardized-drawdown value lies in [0, 100]; a missing
threshold contributes exactly 0 (the function is total with value 0, never
null or NaN); and with a registered threshold the value is
min(abs(max_drawdown) / abs(threshold) * 100, 100) when max_drawdown < 0
and 0 otherwise. -/
theorem c8_standardized_drawdown (th md : Option ℚ) :
    (0 ≤ standardizedDrawdown th md ∧ standardizedDrawdown th md ≤ 100) ∧
    standardizedDrawdown none md = 0 ∧
    ∀ m t : ℚ, md = some m → th = some t →
      standardizedDrawdown th md = if m < 0 then min (|m| / |t| * 100) 100 else 0 := by
  refine ⟨?_, ?_, ?_⟩
  · cases md with
    | none => cases th <;> exact ⟨le_refl 0, by norm_num [standardizedDrawdown]⟩
    | some m =>
      cases th with
      | none => exact ⟨le_refl 0, by norm_num [standardizedDrawdown]⟩
      | some t =>
        simp only [standardizedDrawdown]
        split
        · constructor
          · exact le_min (by positivity) (by norm_num)
          · exact min_le_right _ _
        · exact ⟨le_refl 0, by norm_num⟩
  · cases md <;> rfl
  · intro m t hm ht
    subst hm
    subst ht
    rfl

/-- Witness for C8 at threshold 2 and drawdown -5. -/
theorem c8_witness :
    (0 ≤ standardizedDrawdown (some 2) (some (-5)) ∧
      standardizedDrawdown (some 2) (some (-5)) ≤ 100) ∧
    standardizedDrawdown none (some (-5)) = 0 ∧
    standardizedDrawdown (some 2) (some (-5))
      = if (-5 : ℚ) < 0 then min (|(-5 : ℚ)| / |(2 : ℚ)| * 100) 100 else 0 :=
  ⟨(c8_standardized_drawdown (some 2) (some (-5))).1,
    (c8_standardized_drawdown (some 2) (some (-5))).2.1,
    (c8_standardized_drawdown (some 2) (some (-5))).2.2 (-5) 2 rfl rfl⟩

/-- Claim C9, amended.  run_all_analyses (analyzer.py) looks a missing
coefficient up with default 0.01 and proceeds; main.py and overview.py
instead pass coeff_map.get(symbol) with no default, so a missing
coefficient reaches the simulator as None and the lot-size computation
std * price * coeff fails there (Python TypeError) rather than falling
back to 0.01. -/
theorem c9_coeff_fallback_variants (m : List (String × ℚ)) (sym : String) (std price : ℚ)
    (h : coeffLookup m sym = none) :
    runAllAnalysesCoeff m sym = 1 / 100 ∧ mainCoeff m sym = none ∧
      valueDividerOpt std price (mainCoeff m sym) = none := by
  refine ⟨?_, h, ?_⟩
  · unfold runAllAnalysesCoeff
    rw [h]
    rfl
  · show valueDividerOpt std price (coeffLookup m sym) = none
    rw [h]
    rfl

/-- Counterexample to C9 as stated: with a coefficient map holding only
EURUSD, the main.py / overview.py lookup for XAUUSD yields None — not the
documented default 0.01 — and the ensuing sizing computation fails. -/
theorem c9_counterexample :
    mainCoeff [("EURUSD", 1 / 50)] "XAUUSD" = none ∧
    mainCoeff [("EURUSD", 1 / 50)] "XAUUSD" ≠ some (1 / 100) ∧
    valueDividerOpt 1 100 (mainCoeff [("EURUSD", 1 / 50)] "XAUUSD") = none := by
  have h : coeffLookup [("EURUSD", 1 / 50)] "XAUUSD" = none := by
    simp [coeffLookup]
  refine ⟨h, ?_, ?_⟩
  · show coeffLookup [("EURUSD", 1 / 50)] "XAUUSD" ≠ some (1 / 100)
    rw [h]
    simp
  · show valueDividerOpt 1 100 (coeffLookup [("EURUSD", 1 / 50)] "XAUUSD") = none
    rw [h]
    rfl

/-- Witness for C9's amended theorem at a concrete map missing GBPUSD. -/
theorem c9_witness :
    runAllAnalysesCoeff [("EURUSD", 1 / 50)] "GBPUSD" = 1 / 100 ∧
    mainCoeff [("EURUSD", 1 / 50)] "GBPUSD" = none ∧
    valueDividerOpt 2 50 (mainCoeff [("EURUSD", 1 / 50)] "GBPUSD") = none :=
  c9_coeff_fallback_variants [("EURUSD", 1 / 50)] "GBPUSD" 2 50 (by simp [coeffLookup])

end Trading
